import Mathlib

/-!
A shallow embedding of videosConverter.js

The script `src/videosConverter.js` lists a directory, recognises `.mp4`
entries, derives a target file name for each, and runs `ffmpeg` once per entry
whose target does not exist yet.  The embedding below follows the script
function by function.  JavaScript strings are lists of characters, the file
system and the encoder are parameters (`Sys`), and the effects of a run are
recorded as a trace of events.
-/

namespace VideosConverter

/-! ## Values -/

/-- A JavaScript string, as the list of its characters.  (The script only
searches for and inserts ASCII text, which reads the same on code units.) -/
abbrev JsString := List Char

/-- The JavaScript values that can be bound by the destructuring of
`process.argv` and passed to `selectOutputDir`. -/
inductive JsValue where
  | undefined
  | null
  | str (s : JsString)
deriving DecidableEq, Repr

/-- Conversion `ToString` used by template literals. -/
def JsValue.toJsString : JsValue → JsString
  | .undefined => "undefined".toList
  | .null => "null".toList
  | .str s => s

/-- Element access `array[i]` on `process.argv`: an absent index is `undefined`. -/
def argvAt (argv : List JsString) (i : Nat) : JsValue :=
  match argv.get? i with
  | some s => .str s
  | none => .undefined

/-- An element of the argument array handed to `spawnSync`: the script passes
strings and one number (`constantRateFactor`). -/
inductive Arg where
  | str (s : JsString)
  | num (n : Nat)
deriving DecidableEq, Repr

/-! ## Numbers to text -/

/-- The character of a decimal digit. -/
def digitChar (d : Nat) : Char := Char.ofNat (48 + d)

/-- Decimal digits of `n`, most significant first, with at most `fuel + 1` digits. -/
def decimalAux : Nat → Nat → List Char
  | 0, n => [digitChar (n % 10)]
  | fuel + 1, n => if n < 10 then [digitChar n] else decimalAux fuel (n / 10) ++ [digitChar (n % 10)]

/-- `ToString` of a non-negative integer Number (below 10^21): its decimal digits. -/
def decimal (n : Nat) : JsString := decimalAux n n

/-! ## Configuration constants (lines 52-58) -/

def constantRateFactor : Nat := 23
def audioCodec : JsString := "aac".toList
def presetSpeed : JsString := "slow".toList
def defaultOutputDirName : JsString := "x265".toList
def defaultFilenameAddition : JsString := "_x265".toList

/-! ## String helpers of the script -/

/-- `StringIndexOf(string, searchValue, 0)` of ECMAScript: the least index at
which `pat` occurs in the string, if any. -/
def indexOf (pat : JsString) : JsString → Option Nat
  | [] => if pat.isPrefixOf [] then some 0 else none
  | c :: cs => if pat.isPrefixOf (c :: cs) then some 0 else (indexOf pat cs).map (· + 1)

/-- `GetSubstitution` of ECMAScript for a string pattern (no captures): expands
`$$`, `$&`, the dollar-backtick and dollar-apostrophe forms in the replacement
template; every other character, a lone `$` included, is copied. -/
def getSubstitution (matched preceding following : JsString) : JsString → JsString
  | [] => []
  | [c] => [c]
  | c :: d :: t =>
    if c = '$' then
      if d = '$' then '$' :: getSubstitution matched preceding following t
      else if d = '&' then matched ++ getSubstitution matched preceding following t
      else if d = Char.ofNat 96 then preceding ++ getSubstitution matched preceding following t
      else if d = Char.ofNat 39 then following ++ getSubstitution matched preceding following t
      else c :: getSubstitution matched preceding following (d :: t)
    else c :: getSubstitution matched preceding following (d :: t)

/-- `String.prototype.replace(searchString, replaceString)` with a string
pattern: only the first occurrence is replaced. -/
def replace (s pat template : JsString) : JsString :=
  match indexOf pat s with
  | none => s
  | some pos =>
    let preceding := s.take pos
    let following := s.drop (pos + pat.length)
    preceding ++ getSubstitution pat preceding following template ++ following

/-- Lines 149-151: `String(filename).replace('.mp4', filenameAddition + '.mp4')`.
Entry names are strings, which `String(...)` returns unchanged. -/
def generateTargetFilename (filename filenameAddition : JsString) : JsString :=
  replace filename ".mp4".toList (filenameAddition ++ ".mp4".toList)

/-- The regular expression `/\.mp4$/` tested against a string: a match is tried
at every start position, and succeeds where the four characters `.mp4` are
followed by the end of the input. -/
def testDotMp4End : JsString → Bool
  | [] => false
  | c :: cs => (c :: cs == ".mp4".toList) || testDotMp4End cs

/-- Lines 153-156: `/\.mp4$/.test(String(filename))`. -/
def isVideo (filename : JsString) : Bool := testDotMp4End filename

/-- Lines 141-147: the given directory unless it is `null`, the empty string
or `undefined`, in which case the default. -/
def selectOutputDir (outputDir : JsValue) (defaultOutputDirName : JsString) : JsValue :=
  if outputDir ≠ .null ∧ outputDir ≠ .str [] ∧ outputDir ≠ .undefined then
    outputDir
  else
    .str defaultOutputDirName

/-- `Number.prototype.toFixed(f)` of ECMAScript for the non-negative real
`num / den` below 10^21: take the integer `n` for which `n / 10^f - x` is as
close to zero as possible (the larger one if there are two), write its decimal
digits, left-pad with zeros to `f + 1` digits, and put a dot before the last
`f` digits.  (From 10^21 on the script's `toFixed` switches to the exponent
form of `ToString`, which is not reproduced here.) -/
def toFixed (num den f : Nat) : JsString :=
  let n := (2 * num * 10 ^ f + den) / (2 * den)
  let m := decimal n
  if f ≠ 0 then
    let m := if m.length ≤ f then List.replicate (f + 1 - m.length) '0' ++ m else m
    let k := m.length
    m.take (k - f) ++ '.' :: m.drop (k - f)
  else
    m

/-- Lines 133-135: `(bytes / 1024 / 1024).toFixed(2)`.  A byte count is an
integer Number; dividing it by 1024 twice only lowers its binary exponent, so
the quotient is the exact real `bytes / 1024^2`. -/
def convertBytesToMegaBytes (bytes : Nat) : JsString :=
  toFixed bytes (1024 * 1024) 2

/-! ## The environment of a run -/

/-- What the script reads from and does to the world `W` outside it: the `fs`
calls, the child process, and the two computations on clock readings and on
floating-point quotients whose text is only printed. -/
structure Sys (W : Type) where
  /-- `fs.mkdirSync(path)`: the world afterwards, and `err.code` if it throws. -/
  mkdirSync : W → JsString → W × Option JsString
  /-- `fs.readdirSync(path)`: the entry names, or the error thrown. -/
  readdirSync : W → JsString → Except JsString (List JsString)
  /-- `fs.existsSync(path)`. -/
  existsSync : W → JsString → Bool
  /-- `fs.statSync(path)['size']`, or the error thrown. -/
  statSync : W → JsString → Except JsString Nat
  /-- `spawnSync(command, args)`: the world once the child process has ended. -/
  spawnSync : W → JsString → List Arg → W
  /-- `parseHrtimeToSeconds(process.hrtime(start))`, from the world in which
  `start` was read and the current one. -/
  elapsedSeconds : W → W → JsString
  /-- `((sizeGenerated / sizeOriginal) * 100).toFixed(2)` on the two size texts. -/
  ratioSize : JsString → JsString → JsString

/-- The observable actions of the script, in the order they happen. -/
inductive Event where
  | log (line : JsString)
  | error (line : JsString)
  | mkdir (path : JsString)
  | readdir (path : JsString)
  | spawn (command : JsString) (args : List Arg)
deriving DecidableEq, Repr

/-- How a run ends: `process.exit(code)`, or an exception nobody catches. -/
inductive Outcome where
  | exit (code : Nat)
  | uncaught (err : JsString)
deriving DecidableEq, Repr

/-- The encoder invocations recorded in a trace. -/
def spawns : List Event → List (JsString × List Arg)
  | [] => []
  | .spawn c a :: es => (c, a) :: spawns es
  | _ :: es => spawns es

/-! ## The conversion loop (lines 76-112) -/

/-- The variables the loop body updates, the world, the trace so far, and the
exception that left the body, if one did. -/
structure LoopState (W : Type) where
  world : W
  videoCount : Nat
  conversionCount : Nat
  trace : List Event
  thrown : Option JsString

/-- Lines 77-79: the counters before the loop. -/
def initialState {W : Type} (w : W) (trace : List Event) : LoopState W :=
  { world := w, videoCount := 0, conversionCount := 0, trace := trace, thrown := none }

/-- The argument array of line 99, with the target file name as computed on line 86. -/
def ffmpegArgs (fileName outputDirName targetFilename : JsString) : List Arg :=
  [.str "-i".toList, .str fileName, .str "-c:v".toList, .str "libx265".toList,
   .str "-crf".toList, .num constantRateFactor, .str "-c:a".toList, .str audioCodec,
   .str "-b:a".toList, .str "128k".toList, .str "-preset".toList, .str presetSpeed,
   .str (outputDirName ++ "/".toList ++ targetFilename)]

/-- Line 92: the notice for a target that is already there. -/
def existsLine (videoCount : Nat) (outputDirName targetFilename : JsString) (size : Nat) : JsString :=
  decimal videoCount ++ ": The file ".toList ++ outputDirName ++ "/".toList ++ targetFilename
    ++ " (".toList ++ convertBytesToMegaBytes size ++ "Mio) already exists!".toList

/-- Line 109: the report of one conversion. -/
def generatedLine (videoCount : Nat) (outputDirName targetFilename sizeOriginal sizeGenerated
    ratioSize seconds : JsString) : JsString :=
  decimal videoCount ++ ": ".toList ++ outputDirName ++ "/".toList ++ targetFilename
    ++ " (".toList ++ sizeOriginal ++ "Mio -> ".toList ++ sizeGenerated ++ "Mio, ".toList
    ++ ratioSize ++ "%) generated in ".toList ++ seconds ++ " seconds.".toList

/-- Lines 82-112, the body of the callback for one directory entry. -/
def processEntry {W : Type} (sys : Sys W) (outputDirName : JsString) (st : LoopState W)
    (fileName : JsString) : LoopState W :=
  if isVideo fileName then
    let st1 : LoopState W := { st with videoCount := st.videoCount + 1 }
    let targetFilename := generateTargetFilename fileName defaultFilenameAddition
    let targetPath := outputDirName ++ "/".toList ++ targetFilename
    if sys.existsSync st1.world targetPath then
      match sys.statSync st1.world targetPath with
      | .error e => { st1 with thrown := some e }
      | .ok size =>
        { st1 with trace := st1.trace ++
            [Event.log (existsLine st1.videoCount outputDirName targetFilename size)] }
    else
      let st2 : LoopState W := { st1 with conversionCount := st1.conversionCount + 1 }
      let conversionStart := st2.world
      let args := ffmpegArgs fileName outputDirName targetFilename
      let st3 : LoopState W :=
        { st2 with
          world := sys.spawnSync st2.world "ffmpeg".toList args
          trace := st2.trace ++ [Event.spawn "ffmpeg".toList args] }
      match sys.statSync st3.world fileName with
      | .error e => { st3 with thrown := some e }
      | .ok bytesOriginal =>
        let sizeOriginal := convertBytesToMegaBytes bytesOriginal
        match sys.statSync st3.world targetPath with
        | .error e => { st3 with thrown := some e }
        | .ok bytesGenerated =>
          let sizeGenerated := convertBytesToMegaBytes bytesGenerated
          let ratioSize := sys.ratioSize sizeGenerated sizeOriginal
          { st3 with trace := st3.trace ++
              [Event.log (generatedLine st3.videoCount outputDirName targetFilename sizeOriginal
                sizeGenerated ratioSize (sys.elapsedSeconds conversionStart st3.world))] }
  else
    st

/-- `filesArray.forEach(callback)`: the callback runs on the entries in order,
and an exception thrown by it ends the loop. -/
def forEach {W : Type} (sys : Sys W) (outputDirName : JsString) :
    LoopState W → List JsString → LoopState W
  | st, [] => st
  | st, fileName :: rest =>
    let st1 := processEntry sys outputDirName st fileName
    if st1.thrown.isSome then st1 else forEach sys outputDirName st1 rest

/-! ## The summary (lines 114-124) -/

def noneFoundLine : JsString := "No video files were converted. None were found.".toList

def alreadyConvertedLine (videoCount : Nat) : JsString :=
  "No new video files were converted. The ".toList ++ decimal videoCount
    ++ " existing ones were already converted.".toList

def convertedLine (conversionCount : Nat) (seconds : JsString) : JsString :=
  decimal conversionCount ++ " videos converted in ".toList ++ seconds ++ " seconds.".toList

/-- Line 123: the command line printed after at least one conversion. -/
def commandLineUsed (outputDirName : JsString) : JsString :=
  "Command line used: `ffmpeg -i <fileName> -c:v libx265 -crf ".toList ++ decimal constantRateFactor
    ++ " -c:a ".toList ++ audioCodec ++ " -b:a 128k ".toList ++ outputDirName
    ++ "/<targetFilename>`".toList

/-- Lines 115-124: the lines printed once the loop is over. -/
def summary (videoCount conversionCount : Nat) (seconds outputDirName : JsString) :
    List JsString :=
  if conversionCount = 0 then
    if videoCount = 0 then
      [noneFoundLine]
    else
      [alreadyConvertedLine videoCount]
  else
    [convertedLine conversionCount seconds, commandLineUsed outputDirName]

/-! ## The whole script (lines 60-127) -/

/-- A finished run: the world it leaves, what it did, and how it ended. -/
structure Run (W : Type) where
  world : W
  trace : List Event
  outcome : Outcome

def invalidArgumentsLine (argc : Nat) : JsString :=
  "An invalid number of arguments has been passed (".toList ++ decimal (argc - 2)
    ++ "). Aborting.".toList

/-- Line 172, printed by `showUsage`. -/
def usageLine : JsString :=
  "Usage: nodejs videosConverter.js <folderContainingTheVideosToConvert> [<outputDir>]".toList

/-- Lines 68-70: the output directory name bound from `process.argv`, as the
text it contributes to the paths built from it. -/
def outputDirNameOf (argv : List JsString) : JsString :=
  (selectOutputDir (argvAt argv 3) defaultOutputDirName).toJsString

/-- Lines 76-127: the listing, the loop, the summary and the final
`process.exit(0)`, in the world `w1` left by the creation of the output folder. -/
def mainLoop {W : Type} (sys : Sys W) (w1 : W) (t2 : List Event)
    (targetFolder outputDirName : JsString) : Run W :=
  let globalStart := w1
  let t3 := t2 ++ [Event.readdir targetFolder]
  match sys.readdirSync w1 targetFolder with
  | .error e => { world := w1, trace := t3, outcome := .uncaught e }
  | .ok filesArray =>
    let st := forEach sys outputDirName (initialState w1 t3) filesArray
    match st.thrown with
    | some e => { world := st.world, trace := st.trace, outcome := .uncaught e }
    | none =>
      { world := st.world,
        trace := st.trace ++ (summary st.videoCount st.conversionCount
          (sys.elapsedSeconds globalStart st.world) outputDirName).map Event.log,
        outcome := .exit 0 }

/-- The script from its first statement to `process.exit`, on the arguments
`process.argv` and the world `w`. -/
def main {W : Type} (sys : Sys W) (w : W) (argv : List JsString) : Run W :=
  if argv.length = 2 ∨ argv.length > 4 then
    { world := w,
      trace := [Event.error (invalidArgumentsLine argv.length), Event.log usageLine],
      outcome := .exit 1 }
  else
    let filesOrFolders := argvAt argv 2
    let targetFolder := "./".toList ++ filesOrFolders.toJsString ++ "/".toList
    let outputDirName := outputDirNameOf argv
    let t1 : List Event := [Event.log ("Listing and converting all the video files in the '".toList
      ++ filesOrFolders.toJsString ++ "' directory...".toList)]
    -- createOutputFolder and mkdirSync, lines 158-169
    let made := sys.mkdirSync w outputDirName
    let t2 := t1 ++ [Event.mkdir outputDirName]
    match made.2 with
    | some code =>
      if code ≠ "EEXIST".toList then
        { world := made.1, trace := t2, outcome := .uncaught code }
      else
        mainLoop sys made.1 t2 targetFolder outputDirName
    | none => mainLoop sys made.1 t2 targetFolder outputDirName

/-! ## A concrete environment -/

/-- A world that is just the list of the paths that exist. -/
abbrev DemoWorld := List JsString

/-- An environment in which the listed folder holds `a.mp4` and `notes.txt`,
every existing file weighs one mebibyte, and the encoder creates the file named
by its last argument. -/
def demoSys : Sys DemoWorld where
  mkdirSync w _ := (w, none)
  readdirSync _ _ := .ok ["a.mp4".toList, "notes.txt".toList]
  existsSync w p := decide (p ∈ w)
  statSync _ _ := .ok 1048576
  spawnSync w _ args :=
    match args.getLast? with
    | some (.str p) => p :: w
    | _ => w
  elapsedSeconds _ _ := "0.001".toList
  ratioSize _ _ := "100.00".toList

/-- The loop state before the first entry in an empty demo world. -/
def demoState : LoopState DemoWorld := initialState [] []

/-- The loop state in a demo world where the target of `a.mp4` is already there. -/
def demoStateDone : LoopState DemoWorld := initialState ["x265/a_x265.mp4".toList] []

/-! ## Lemmas on the string helpers -/

theorem testDotMp4End_iff (s : JsString) :
    testDotMp4End s = true ↔ ".mp4".toList <:+ s := by
  induction s with
  | nil => simp [testDotMp4End]
  | cons c cs ih =>
    rw [testDotMp4End, Bool.or_eq_true, ih, List.suffix_cons_iff, beq_iff_eq]
    constructor
    · rintro (h | h)
      · exact Or.inl h.symm
      · exact Or.inr h
    · rintro (h | h)
      · exact Or.inl h.symm
      · exact Or.inr h

theorem isVideo_iff (s : JsString) : isVideo s = true ↔ ".mp4".toList <:+ s :=
  testDotMp4End_iff s

theorem indexOf_at_head (pat s : JsString) (h : pat <+: s) : indexOf pat s = some 0 := by
  cases s with
  | nil => simp [indexOf, List.isPrefixOf_iff_prefix, h]
  | cons c cs => simp [indexOf, List.isPrefixOf_iff_prefix, h]

theorem indexOf_cons (pat : JsString) (c : Char) (cs : JsString) (h : ¬ pat <+: c :: cs) :
    indexOf pat (c :: cs) = (indexOf pat cs).map (· + 1) := by
  simp [indexOf, List.isPrefixOf_iff_prefix, h]

theorem indexOf_first (pat a b : JsString)
    (h : ∀ a' b', a ++ pat ++ b = a' ++ pat ++ b' → a.length ≤ a'.length) :
    indexOf pat (a ++ pat ++ b) = some a.length := by
  induction a with
  | nil =>
    exact indexOf_at_head pat _ ⟨b, by simp⟩
  | cons c a ih =>
    have hnp : ¬ pat <+: c :: (a ++ pat ++ b) := by
      rintro ⟨t, ht⟩
      have := h [] t (by simpa using ht.symm)
      simp at this
    have ih' := ih (fun a' b' e => by
      have := h (c :: a') b' (by simp [← e])
      simpa using this)
    have e : (c :: a) ++ pat ++ b = c :: (a ++ pat ++ b) := by simp
    rw [e, indexOf_cons pat c _ hnp, ih']
    simp

theorem indexOf_eq_none (pat s : JsString) (h : ¬ pat <:+: s) : indexOf pat s = none := by
  induction s with
  | nil =>
    have : ¬ pat <+: [] := fun hp => h hp.isInfix
    simp [indexOf, List.isPrefixOf_iff_prefix, this]
  | cons c cs ih =>
    have hnp : ¬ pat <+: c :: cs := fun hp => h hp.isInfix
    have hni : ¬ pat <:+: cs := fun hi => h (hi.trans (List.suffix_cons c cs).isInfix)
    rw [indexOf_cons pat c cs hnp, ih hni]
    rfl

theorem indexOf_some_spec (pat : JsString) :
    ∀ (s : JsString) (i : Nat), indexOf pat s = some i →
      s = s.take i ++ pat ++ s.drop (i + pat.length) := by
  intro s
  induction s with
  | nil =>
    intro i h
    by_cases hp : pat <+: []
    · have : pat = [] := by simpa using hp
      subst this
      simp
    · simp [indexOf, List.isPrefixOf_iff_prefix, hp] at h
  | cons c cs ih =>
    intro i h
    by_cases hp : pat <+: c :: cs
    · rw [indexOf_at_head pat _ hp] at h
      obtain ⟨t, ht⟩ := hp
      have hi : i = 0 := by simpa using h.symm
      subst hi
      simp [← ht]
    · rw [indexOf_cons pat c cs hp] at h
      cases hcs : indexOf pat cs with
      | none => simp [hcs] at h
      | some k =>
        have hi : i = k + 1 := by simpa [hcs] using h.symm
        subst hi
        have := ih k hcs
        have e : k + 1 + pat.length = (k + pat.length) + 1 := by omega
        rw [e, List.take_succ_cons, List.drop_succ_cons]
        simpa using this

theorem indexOf_isSome_of_suffix (pat s : JsString) (h : pat <:+ s) :
    ∃ i, indexOf pat s = some i := by
  obtain ⟨a, rfl⟩ := h
  induction a with
  | nil => exact ⟨0, indexOf_at_head pat _ (by simp)⟩
  | cons c a ih =>
    by_cases hp : pat <+: c :: (a ++ pat)
    · exact ⟨0, indexOf_at_head pat _ hp⟩
    · obtain ⟨k, hk⟩ := ih
      exact ⟨k + 1, by rw [List.cons_append, indexOf_cons pat c _ hp, hk]; rfl⟩

/-- The replacement template of line 150 for the fixed addition has no `$`,
so the substitution leaves it as it is. -/
theorem getSubstitution_x265 (m p f : JsString) :
    getSubstitution m p f (defaultFilenameAddition ++ ".mp4".toList) = "_x265.mp4".toList := by
  rfl

theorem generateTargetFilename_of_index (s : JsString) (i : Nat)
    (h : indexOf ".mp4".toList s = some i) :
    generateTargetFilename s defaultFilenameAddition
      = s.take i ++ "_x265.mp4".toList ++ s.drop (i + 4) := by
  unfold generateTargetFilename replace
  rw [h]
  simp only [getSubstitution_x265]
  rfl

theorem generateTargetFilename_of_none (s : JsString)
    (h : indexOf ".mp4".toList s = none) :
    generateTargetFilename s defaultFilenameAddition = s := by
  unfold generateTargetFilename replace
  rw [h]

theorem generateTargetFilename_nil : generateTargetFilename [] defaultFilenameAddition = [] := by
  rfl

theorem generateTargetFilename_at_head (s : JsString) (h : ".mp4".toList <+: s) :
    generateTargetFilename s defaultFilenameAddition = "_x265.mp4".toList ++ s.drop 4 := by
  rw [generateTargetFilename_of_index s 0 (indexOf_at_head _ s h)]
  simp

theorem generateTargetFilename_cons (c : Char) (cs : JsString)
    (h : ¬ ".mp4".toList <+: c :: cs) :
    generateTargetFilename (c :: cs) defaultFilenameAddition
      = c :: generateTargetFilename cs defaultFilenameAddition := by
  have hc := indexOf_cons _ c cs h
  cases hcs : indexOf ".mp4".toList cs with
  | none =>
    rw [hcs] at hc
    rw [generateTargetFilename_of_none _ hc, generateTargetFilename_of_none _ hcs]
  | some k =>
    rw [hcs] at hc
    rw [generateTargetFilename_of_index _ (k + 1) hc, generateTargetFilename_of_index _ k hcs]
    have e : k + 1 + 4 = (k + 4) + 1 := by omega
    rw [e, List.take_succ_cons, List.drop_succ_cons]
    simp

/-- A prefix of the target name that has no underscore is a prefix of the source name. -/
theorem prefix_of_prefix_target (s : JsString) :
    ∀ q : JsString, '_' ∉ q → q <+: generateTargetFilename s defaultFilenameAddition → q <+: s := by
  induction s with
  | nil =>
    intro q _ h
    simpa [generateTargetFilename_nil] using h
  | cons c cs ih =>
    intro q hq h
    cases q with
    | nil => exact List.nil_prefix
    | cons a q =>
      by_cases hp : ".mp4".toList <+: c :: cs
      · rw [generateTargetFilename_at_head _ hp] at h
        have h1 : a :: q <+: '_' :: ("x265.mp4".toList ++ (c :: cs).drop 4) := h
        rw [List.cons_prefix_cons] at h1
        exact absurd (h1.1 ▸ List.mem_cons_self a q) hq
      · rw [generateTargetFilename_cons c cs hp, List.cons_prefix_cons] at h
        rw [List.cons_prefix_cons]
        exact ⟨h.1, ih q (fun hm => hq (List.mem_cons_of_mem a hm)) h.2⟩

/-- The first `.mp4` of the target name sits five characters after the first
`.mp4` of the source name. -/
theorem indexOf_target (s : JsString) :
    ∀ i, indexOf ".mp4".toList s = some i →
      indexOf ".mp4".toList (generateTargetFilename s defaultFilenameAddition) = some (i + 5) := by
  induction s with
  | nil => intro i h; simp [indexOf] at h
  | cons c cs ih =>
    intro i h
    by_cases hp : ".mp4".toList <+: c :: cs
    · rw [indexOf_at_head _ _ hp] at h
      have hi : i = 0 := by simpa using h.symm
      subst hi
      rw [generateTargetFilename_at_head _ hp]
      simp [indexOf, List.isPrefixOf]
    · rw [indexOf_cons _ c cs hp] at h
      cases hcs : indexOf ".mp4".toList cs with
      | none => rw [hcs] at h; simp at h
      | some k =>
        rw [hcs] at h
        have hi : i = k + 1 := by simpa using h.symm
        subst hi
        have hnp : ¬ ".mp4".toList <+: c :: generateTargetFilename cs defaultFilenameAddition := by
          intro hq
          rw [← generateTargetFilename_cons c cs hp] at hq
          exact hp (prefix_of_prefix_target (c :: cs) _ (by decide) hq)
        rw [generateTargetFilename_cons c cs hp, indexOf_cons _ c _ hnp, ih k hcs]
        rfl

/-- Two names that both contain `.mp4` and have the same target name are equal. -/
theorem generateTargetFilename_inj_of_index (s₁ s₂ : JsString) (i₁ i₂ : Nat)
    (h₁ : indexOf ".mp4".toList s₁ = some i₁) (h₂ : indexOf ".mp4".toList s₂ = some i₂)
    (h : generateTargetFilename s₁ defaultFilenameAddition
      = generateTargetFilename s₂ defaultFilenameAddition) : s₁ = s₂ := by
  have e₁ := indexOf_target s₁ i₁ h₁
  have e₂ := indexOf_target s₂ i₂ h₂
  rw [h, e₂] at e₁
  have hi : i₂ = i₁ := by simpa using e₁
  subst hi
  have d₁ := indexOf_some_spec _ s₁ i₂ h₁
  have d₂ := indexOf_some_spec _ s₂ i₂ h₂
  have l₁ : i₂ + 4 ≤ s₁.length := by
    have := congrArg List.length d₁
    simp only [List.length_append, List.length_take, List.length_drop] at this
    have e4 : (".mp4".toList).length = 4 := rfl
    rw [e4] at this
    omega
  have l₂ : i₂ + 4 ≤ s₂.length := by
    have := congrArg List.length d₂
    simp only [List.length_append, List.length_take, List.length_drop] at this
    have e4 : (".mp4".toList).length = 4 := rfl
    rw [e4] at this
    omega
  rw [generateTargetFilename_of_index s₁ i₂ h₁, generateTargetFilename_of_index s₂ i₂ h₂,
    List.append_assoc, List.append_assoc] at h
  have hl : (s₁.take i₂).length = (s₂.take i₂).length := by
    simp only [List.length_take]; omega
  obtain ⟨ht, hr⟩ := List.append_inj h hl
  have hd : s₁.drop (i₂ + 4) = s₂.drop (i₂ + 4) := List.append_cancel_left hr
  have e4 : (".mp4".toList).length = 4 := rfl
  rw [e4] at d₁ d₂
  rw [d₁, d₂, ht, hd]

/-! ## Lemmas on the loop -/

theorem spawns_append (a b : List Event) : spawns (a ++ b) = spawns a ++ spawns b := by
  induction a with
  | nil => rfl
  | cons e a ih => cases e <;> simp [spawns, ih]

theorem processEntry_not_video {W : Type} (sys : Sys W) (out : JsString) (st : LoopState W)
    (f : JsString) (h : isVideo f = false) : processEntry sys out st f = st := by
  simp [processEntry, h]

theorem processEntry_existing {W : Type} (sys : Sys W) (out : JsString) (st : LoopState W)
    (f : JsString) (h : isVideo f = true)
    (he : sys.existsSync st.world
      (out ++ "/".toList ++ generateTargetFilename f defaultFilenameAddition) = true) :
    (processEntry sys out st f).videoCount = st.videoCount + 1
      ∧ (processEntry sys out st f).conversionCount = st.conversionCount
      ∧ spawns (processEntry sys out st f).trace = spawns st.trace := by
  simp only [processEntry, h, he, ↓reduceIte]
  split <;> simp [spawns_append, spawns]

theorem processEntry_missing {W : Type} (sys : Sys W) (out : JsString) (st : LoopState W)
    (f : JsString) (h : isVideo f = true)
    (he : sys.existsSync st.world
      (out ++ "/".toList ++ generateTargetFilename f defaultFilenameAddition) = false) :
    (processEntry sys out st f).videoCount = st.videoCount + 1
      ∧ (processEntry sys out st f).conversionCount = st.conversionCount + 1
      ∧ spawns (processEntry sys out st f).trace = spawns st.trace ++
          [("ffmpeg".toList,
            ffmpegArgs f out (generateTargetFilename f defaultFilenameAddition))] := by
  simp only [processEntry, h, he, ↓reduceIte, Bool.false_eq_true]
  split
  · simp [spawns_append, spawns]
  · split <;> simp [spawns_append, spawns]

theorem processEntry_videoCount {W : Type} (sys : Sys W) (out : JsString) (st : LoopState W)
    (f : JsString) :
    (processEntry sys out st f).videoCount = st.videoCount + (if isVideo f then 1 else 0) := by
  cases h : isVideo f
  · simp [processEntry_not_video sys out st f h]
  · cases he : sys.existsSync st.world
      (out ++ "/".toList ++ generateTargetFilename f defaultFilenameAddition)
    · simp [(processEntry_missing sys out st f h he).1]
    · simp [(processEntry_existing sys out st f h he).1]

/-- Each entry adds as many encoder invocations as it adds to the conversion counter. -/
theorem processEntry_spawn_count {W : Type} (sys : Sys W) (out : JsString) (st : LoopState W)
    (f : JsString) :
    (processEntry sys out st f).conversionCount + (spawns st.trace).length
      = st.conversionCount + (spawns (processEntry sys out st f).trace).length := by
  cases h : isVideo f
  · simp [processEntry_not_video sys out st f h]
  · cases he : sys.existsSync st.world
      (out ++ "/".toList ++ generateTargetFilename f defaultFilenameAddition)
    · obtain ⟨_, h2, h3⟩ := processEntry_missing sys out st f h he
      have h4 := congrArg List.length h3
      rw [List.length_append, List.length_singleton] at h4
      omega
    · obtain ⟨_, h2, h3⟩ := processEntry_existing sys out st f h he
      rw [h2, h3]

theorem processEntry_le {W : Type} (sys : Sys W) (out : JsString) (st : LoopState W)
    (f : JsString) (hst : st.conversionCount ≤ st.videoCount) :
    (processEntry sys out st f).conversionCount ≤ (processEntry sys out st f).videoCount := by
  cases h : isVideo f
  · simpa [processEntry_not_video sys out st f h] using hst
  · cases he : sys.existsSync st.world
      (out ++ "/".toList ++ generateTargetFilename f defaultFilenameAddition)
    · obtain ⟨h1, h2, _⟩ := processEntry_missing sys out st f h he
      omega
    · obtain ⟨h1, h2, _⟩ := processEntry_existing sys out st f h he
      omega

theorem forEach_le {W : Type} (sys : Sys W) (out : JsString) (files : List JsString) :
    ∀ st : LoopState W, st.conversionCount ≤ st.videoCount →
      (forEach sys out st files).conversionCount ≤ (forEach sys out st files).videoCount := by
  induction files with
  | nil => intro st h; exact h
  | cons f rest ih =>
    intro st h
    have h1 := processEntry_le sys out st f h
    simp only [forEach]
    split
    · exact h1
    · exact ih _ h1

theorem forEach_spawn_count {W : Type} (sys : Sys W) (out : JsString) (files : List JsString) :
    ∀ st : LoopState W,
      (forEach sys out st files).conversionCount + (spawns st.trace).length
        = st.conversionCount + (spawns (forEach sys out st files).trace).length := by
  induction files with
  | nil => intro st; rfl
  | cons f rest ih =>
    intro st
    have h1 := processEntry_spawn_count sys out st f
    simp only [forEach]
    split
    · exact h1
    · have h2 := ih (processEntry sys out st f)
      omega

/-- The video counter counts the `.mp4` entries among those the loop has gone
through, and the loop goes through all of them unless an exception ends it. -/
theorem forEach_videoCount {W : Type} (sys : Sys W) (out : JsString) (files : List JsString) :
    ∀ st : LoopState W, ∃ k, k ≤ files.length
      ∧ ((forEach sys out st files).thrown = none → k = files.length)
      ∧ (forEach sys out st files).videoCount
          = st.videoCount + (files.take k).countP (fun f => decide (".mp4".toList <:+ f)) := by
  induction files with
  | nil => intro st; exact ⟨0, le_refl _, fun _ => rfl, rfl⟩
  | cons f rest ih =>
    intro st
    have h1 := processEntry_videoCount sys out st f
    have hv : (if isVideo f = true then 1 else 0)
        = List.countP (fun f => decide (".mp4".toList <:+ f)) [f] := by
      by_cases h : isVideo f = true
      · have := (isVideo_iff f).1 h
        rw [if_pos h, List.countP_cons_of_pos (p := fun f => decide (".mp4".toList <:+ f)) []
          (decide_eq_true this)]
        rfl
      · have : ¬ ".mp4".toList <:+ f := fun hs => h ((isVideo_iff f).2 hs)
        rw [if_neg h, List.countP_cons_of_neg (p := fun f => decide (".mp4".toList <:+ f)) []
          (by simpa using this)]
        rfl
    simp only [forEach]
    split
    · rename_i hthrown
      refine ⟨1, by simp, ?_, ?_⟩
      · intro hn
        rw [hn] at hthrown
        simp at hthrown
      · rw [h1, hv]; simp
    · obtain ⟨k, hk, hall, hcount⟩ := ih (processEntry sys out st f)
      refine ⟨k + 1, by simpa using hk, ?_, ?_⟩
      · intro hn
        simp [hall hn]
      · rw [hcount, h1, hv, List.take_succ_cons, List.countP_cons]
        simp only [List.countP_cons, List.countP_nil]
        omega

/-! ## Lemmas on decimal text -/

theorem decimalAux_fuel (f₁ : Nat) :
    ∀ (f₂ n : Nat), n ≤ f₁ → n ≤ f₂ → decimalAux f₁ n = decimalAux f₂ n := by
  induction f₁ with
  | zero =>
    intro f₂ n h₁ _
    have hn : n = 0 := by omega
    subst hn
    cases f₂ <;> simp [decimalAux]
  | succ k ih =>
    intro f₂ n h₁ h₂
    cases f₂ with
    | zero =>
      have hn : n = 0 := by omega
      subst hn
      simp [decimalAux]
    | succ j =>
      simp only [decimalAux]
      by_cases h : n < 10
      · simp [h]
      · simp only [h, if_false]
        rw [ih j (n / 10) (by omega) (by omega)]

theorem decimal_lt_ten (n : Nat) (h : n < 10) : decimal n = [digitChar n] := by
  unfold decimal
  cases n with
  | zero => simp [decimalAux]
  | succ k => simp [decimalAux, h]

theorem decimal_ge_ten (n : Nat) (h : 10 ≤ n) :
    decimal n = decimal (n / 10) ++ [digitChar (n % 10)] := by
  unfold decimal
  cases n with
  | zero => omega
  | succ k =>
    have h' : ¬ k + 1 < 10 := by omega
    simp only [decimalAux, h', if_false]
    rw [decimalAux_fuel k ((k + 1) / 10) ((k + 1) / 10) (by omega) (le_refl _)]

theorem decimal_length_pos (n : Nat) : 0 < (decimal n).length := by
  by_cases h : n < 10
  · simp [decimal_lt_ten n h]
  · simp [decimal_ge_ten n (by omega)]

/-- The text `toFixed(2)` makes of the integer number of hundredths `n`. -/
theorem toFixed_two_digits (num den : Nat) :
    toFixed num den 2
      = decimal ((2 * num * 10 ^ 2 + den) / (2 * den) / 100)
        ++ ['.', digitChar ((2 * num * 10 ^ 2 + den) / (2 * den) / 10 % 10),
            digitChar ((2 * num * 10 ^ 2 + den) / (2 * den) % 10)] := by
  unfold toFixed
  generalize (2 * num * 10 ^ 2 + den) / (2 * den) = n
  simp only [ne_eq, OfNat.ofNat_ne_zero, not_false_eq_true, if_true]
  by_cases h1 : n < 10
  · have e0 : n / 100 = 0 := by omega
    have e1 : n / 10 % 10 = 0 := by omega
    have e2 : n % 10 = n := by omega
    rw [e0, e1, e2, decimal_lt_ten n h1, decimal_lt_ten 0 (by omega)]
    rfl
  · by_cases h2 : n < 100
    · have e0 : n / 100 = 0 := by omega
      have e1 : n / 10 % 10 = n / 10 := by omega
      rw [e0, e1, decimal_ge_ten n (by omega), decimal_lt_ten (n / 10) (by omega),
        decimal_lt_ten 0 (by omega)]
      rfl
    · have e0 : n / 10 / 10 = n / 100 := by omega
      have hd : decimal n
          = decimal (n / 100) ++ [digitChar (n / 10 % 10), digitChar (n % 10)] := by
        rw [decimal_ge_ten n (by omega), decimal_ge_ten (n / 10) (by omega), e0]
        simp
      have hp := decimal_length_pos (n / 100)
      have hl : (decimal n).length = (decimal (n / 100)).length + 2 := by
        rw [hd]; simp
      have hnot : ¬ (decimal n).length ≤ 2 := by omega
      simp only [hnot, if_false]
      rw [hl, Nat.add_sub_cancel, hd, List.take_left' rfl, List.drop_left' rfl]

/-! ## Lemmas on the summary and on the whole script -/

theorem noneFoundLine_ne_alreadyConvertedLine (n : Nat) :
    noneFoundLine ≠ alreadyConvertedLine n := by
  intro h
  have h4 := congrArg (List.take 4) h
  have e1 : List.take 4 noneFoundLine = "No v".toList := rfl
  have e2 : List.take 4 (alreadyConvertedLine n) = "No n".toList := rfl
  rw [e1, e2] at h4
  exact absurd h4 (by decide)

theorem summary_cases (videoCount conversionCount : Nat) (seconds out : JsString)
    (h : conversionCount ≤ videoCount) :
    (summary videoCount conversionCount seconds out = [noneFoundLine] ↔ videoCount = 0)
    ∧ (summary videoCount conversionCount seconds out = [alreadyConvertedLine videoCount]
        ↔ 0 < videoCount ∧ conversionCount = 0)
    ∧ (summary videoCount conversionCount seconds out
        = [convertedLine conversionCount seconds, commandLineUsed out]
        ↔ 1 ≤ conversionCount) := by
  by_cases hc : conversionCount = 0
  · by_cases hv : videoCount = 0
    · have hs : summary videoCount conversionCount seconds out = [noneFoundLine] := by
        simp [summary, hc, hv]
      rw [hs]
      refine ⟨⟨fun _ => hv, fun _ => rfl⟩, ⟨fun e => ?_, fun e => ?_⟩, ⟨fun e => ?_, fun e => ?_⟩⟩
      · exact absurd (List.singleton_inj.1 e) (noneFoundLine_ne_alreadyConvertedLine _)
      · omega
      · exact absurd (congrArg List.length e) (by simp)
      · omega
    · have hs : summary videoCount conversionCount seconds out
          = [alreadyConvertedLine videoCount] := by
        simp [summary, hc, hv]
      rw [hs]
      refine ⟨⟨fun e => ?_, fun e => ?_⟩, ⟨fun _ => ⟨by omega, hc⟩, fun _ => rfl⟩,
        ⟨fun e => ?_, fun e => ?_⟩⟩
      · exact absurd (List.singleton_inj.1 e).symm (noneFoundLine_ne_alreadyConvertedLine _)
      · exact absurd e hv
      · exact absurd (congrArg List.length e) (by simp)
      · omega
  · have hs : summary videoCount conversionCount seconds out
        = [convertedLine conversionCount seconds, commandLineUsed out] := by
      simp [summary, hc]
    rw [hs]
    refine ⟨⟨fun e => ?_, fun e => ?_⟩, ⟨fun e => ?_, fun e => ?_⟩,
      ⟨fun _ => by omega, fun _ => rfl⟩⟩
    · exact absurd (congrArg List.length e) (by simp)
    · omega
    · exact absurd (congrArg List.length e) (by simp)
    · exact absurd e.2 hc

theorem mainLoop_outcome {W : Type} (sys : Sys W) (w1 : W) (t2 : List Event)
    (targetFolder out : JsString) :
    (mainLoop sys w1 t2 targetFolder out).outcome ≠ Outcome.exit 1 := by
  unfold mainLoop
  split
  · simp
  · dsimp only
    split <;> simp

theorem processEntry_trace {W : Type} (sys : Sys W) (out : JsString) (st : LoopState W)
    (f : JsString) : st.trace <+: (processEntry sys out st f).trace := by
  unfold processEntry
  dsimp only
  split
  · split
    · split
      · exact List.prefix_refl _
      · exact List.prefix_append _ _
    · split
      · exact List.prefix_append _ _
      · split
        · exact List.prefix_append _ _
        · rw [List.append_assoc]
          exact List.prefix_append _ _
  · exact List.prefix_refl _

theorem forEach_trace {W : Type} (sys : Sys W) (out : JsString) (files : List JsString) :
    ∀ st : LoopState W, st.trace <+: (forEach sys out st files).trace := by
  induction files with
  | nil => intro st; exact List.prefix_refl _
  | cons f rest ih =>
    intro st
    have h1 := processEntry_trace sys out st f
    simp only [forEach]
    split
    · exact h1
    · exact h1.trans (ih _)

theorem mainLoop_trace {W : Type} (sys : Sys W) (w1 : W) (t2 : List Event)
    (targetFolder out : JsString) :
    t2 <+: (mainLoop sys w1 t2 targetFolder out).trace := by
  unfold mainLoop
  split
  · exact List.prefix_append _ _
  · dsimp only
    rename_i filesArray _
    have h1 : t2 <+: (forEach sys out (initialState w1 (t2 ++ [Event.readdir targetFolder]))
        filesArray).trace :=
      (List.prefix_append t2 _).trans
        (forEach_trace sys out filesArray (initialState w1 (t2 ++ [Event.readdir targetFolder])))
    split
    · exact h1
    · exact h1.trans (List.prefix_append _ _)

theorem processEntry_missing_world {W : Type} (sys : Sys W) (out : JsString) (st : LoopState W)
    (f : JsString) (h : isVideo f = true)
    (he : sys.existsSync st.world
      (out ++ "/".toList ++ generateTargetFilename f defaultFilenameAddition) = false) :
    (processEntry sys out st f).world
      = sys.spawnSync st.world "ffmpeg".toList
          (ffmpegArgs f out (generateTargetFilename f defaultFilenameAddition)) := by
  simp only [processEntry, h, he, ↓reduceIte, Bool.false_eq_true]
  split
  · rfl
  · split <;> rfl

theorem processEntry_existing_world {W : Type} (sys : Sys W) (out : JsString) (st : LoopState W)
    (f : JsString) (h : isVideo f = true)
    (he : sys.existsSync st.world
      (out ++ "/".toList ++ generateTargetFilename f defaultFilenameAddition) = true) :
    (processEntry sys out st f).world = st.world := by
  simp only [processEntry, h, he, ↓reduceIte]
  split <;> rfl

theorem mainLoop_completed {W : Type} (sys : Sys W) (w1 : W) (t2 : List Event)
    (targetFolder out : JsString) (files : List JsString)
    (hread : sys.readdirSync w1 targetFolder = Except.ok files)
    (hthrown : (forEach sys out (initialState w1 (t2 ++ [Event.readdir targetFolder]))
      files).thrown = none) :
    mainLoop sys w1 t2 targetFolder out
      = { world := (forEach sys out (initialState w1 (t2 ++ [Event.readdir targetFolder]))
            files).world,
          trace := (forEach sys out (initialState w1 (t2 ++ [Event.readdir targetFolder]))
            files).trace
            ++ (summary
              (forEach sys out (initialState w1 (t2 ++ [Event.readdir targetFolder]))
                files).videoCount
              (forEach sys out (initialState w1 (t2 ++ [Event.readdir targetFolder]))
                files).conversionCount
              (sys.elapsedSeconds w1
                (forEach sys out (initialState w1 (t2 ++ [Event.readdir targetFolder]))
                  files).world) out).map Event.log,
          outcome := Outcome.exit 0 } := by
  unfold mainLoop
  rw [hread]
  dsimp only
  rw [hthrown]

theorem mainLoop_thrown {W : Type} (sys : Sys W) (w1 : W) (t2 : List Event)
    (targetFolder out : JsString) (files : List JsString) (e : JsString)
    (hread : sys.readdirSync w1 targetFolder = Except.ok files)
    (hthrown : (forEach sys out (initialState w1 (t2 ++ [Event.readdir targetFolder]))
      files).thrown = some e) :
    mainLoop sys w1 t2 targetFolder out
      = { world := (forEach sys out (initialState w1 (t2 ++ [Event.readdir targetFolder]))
            files).world,
          trace := (forEach sys out (initialState w1 (t2 ++ [Event.readdir targetFolder]))
            files).trace,
          outcome := Outcome.uncaught e } := by
  unfold mainLoop
  rw [hread]
  dsimp only
  rw [hthrown]

theorem append_logs_eq_iff (t : List Event) (ls ms : List JsString) :
    t ++ ls.map Event.log = t ++ ms.map Event.log ↔ ls = ms := by
  constructor
  · intro h
    have h1 := List.append_cancel_left h
    exact List.map_injective_iff.2 (fun a b hab => Event.log.inj hab) h1
  · intro h; rw [h]

/-! ## The claims -/

/-- C1: what the loop body does with one directory entry, by its name and by
the presence of `<outputDir>/<target>` when the entry is reached: a name that
does not end with `.mp4` changes neither counter and starts no encoder; a name
ending with `.mp4` whose target exists adds one to the video counter only and
starts no encoder; a name ending with `.mp4` whose target is missing adds one
to both counters and starts the encoder exactly once.  Hence, for the loop,
the conversion counter is the number of encoder invocations, the video counter
is the number of `.mp4` entries among those gone through, and that is the whole
listing when the loop runs to its end. -/
theorem conversion_loop_entry_effects {W : Type} (sys : Sys W) (outputDirName : JsString) :
    (∀ (st : LoopState W) (fileName : JsString),
      (¬ ".mp4".toList <:+ fileName →
        (processEntry sys outputDirName st fileName).videoCount = st.videoCount
        ∧ (processEntry sys outputDirName st fileName).conversionCount = st.conversionCount
        ∧ spawns (processEntry sys outputDirName st fileName).trace = spawns st.trace)
      ∧ (".mp4".toList <:+ fileName →
        sys.existsSync st.world
          (outputDirName ++ "/".toList ++ generateTargetFilename fileName "_x265".toList) = true →
        (processEntry sys outputDirName st fileName).videoCount = st.videoCount + 1
        ∧ (processEntry sys outputDirName st fileName).conversionCount = st.conversionCount
        ∧ spawns (processEntry sys outputDirName st fileName).trace = spawns st.trace)
      ∧ (".mp4".toList <:+ fileName →
        sys.existsSync st.world
          (outputDirName ++ "/".toList ++ generateTargetFilename fileName "_x265".toList) = false →
        (processEntry sys outputDirName st fileName).videoCount = st.videoCount + 1
        ∧ (processEntry sys outputDirName st fileName).conversionCount = st.conversionCount + 1
        ∧ ∃ args, spawns (processEntry sys outputDirName st fileName).trace
            = spawns st.trace ++ [("ffmpeg".toList, args)]))
    ∧ (∀ (w : W) (t : List Event) (files : List JsString),
      (forEach sys outputDirName (initialState w t) files).conversionCount + (spawns t).length
        = (spawns (forEach sys outputDirName (initialState w t) files).trace).length
      ∧ (∃ k, k ≤ files.length
        ∧ (forEach sys outputDirName (initialState w t) files).videoCount
          = (files.take k).countP (fun f => decide (".mp4".toList <:+ f)))
      ∧ ((forEach sys outputDirName (initialState w t) files).thrown = none →
        (forEach sys outputDirName (initialState w t) files).videoCount
          = files.countP (fun f => decide (".mp4".toList <:+ f)))) := by
  refine ⟨fun st fileName => ⟨?_, ?_, ?_⟩, fun w t files => ⟨?_, ?_, ?_⟩⟩
  · intro h
    have hv : isVideo fileName = false := by
      cases hb : isVideo fileName
      · rfl
      · exact absurd ((isVideo_iff fileName).1 hb) h
    rw [processEntry_not_video sys outputDirName st fileName hv]
    exact ⟨rfl, rfl, rfl⟩
  · intro h he
    exact processEntry_existing sys outputDirName st fileName ((isVideo_iff fileName).2 h) he
  · intro h he
    obtain ⟨h1, h2, h3⟩ :=
      processEntry_missing sys outputDirName st fileName ((isVideo_iff fileName).2 h) he
    exact ⟨h1, h2, _, h3⟩
  · have := forEach_spawn_count sys outputDirName files (initialState w t)
    simpa [initialState] using this
  · obtain ⟨k, hk, _, hc⟩ := forEach_videoCount sys outputDirName files (initialState w t)
    exact ⟨k, hk, by simpa [initialState] using hc⟩
  · intro hn
    obtain ⟨k, _, hall, hc⟩ := forEach_videoCount sys outputDirName files (initialState w t)
    rw [hall hn, List.take_length] at hc
    simpa [initialState] using hc

theorem conversion_loop_entry_effects_witness :
    (¬ ".mp4".toList <:+ "notes.txt".toList
      ∧ (processEntry demoSys "x265".toList demoState "notes.txt".toList).videoCount = 0)
    ∧ (".mp4".toList <:+ "a.mp4".toList
      ∧ (processEntry demoSys "x265".toList demoStateDone "a.mp4".toList).conversionCount = 0)
    ∧ (processEntry demoSys "x265".toList demoState "a.mp4".toList).conversionCount = 1
    ∧ (forEach demoSys "x265".toList (initialState [] []) ["a.mp4".toList]).videoCount = 1 :=
  ⟨⟨by decide,
    (((conversion_loop_entry_effects demoSys "x265".toList).1 demoState "notes.txt".toList).1
      (by decide)).1⟩,
   ⟨by decide,
    (((conversion_loop_entry_effects demoSys "x265".toList).1 demoStateDone "a.mp4".toList).2.1
      (by decide) (by decide)).2.1⟩,
   (((conversion_loop_entry_effects demoSys "x265".toList).1 demoState "a.mp4".toList).2.2
      (by decide) (by decide)).2.1,
   ((conversion_loop_entry_effects demoSys "x265".toList).2 [] [] ["a.mp4".toList]).2.2
      (by decide)⟩

/-- C2: `generateTargetFilename(filename, '_x265')` replaces the first `.mp4`
only: when the name is `a ++ ".mp4" ++ b` and no `.mp4` starts before position
`|a|`, the result is `a ++ "_x265.mp4" ++ b`; a name without `.mp4` comes back
unchanged; `clip.mp4.backup` becomes `clip_x265.mp4.backup`. -/
theorem generateTargetFilename_first_occurrence (name : JsString) :
    (∀ a b : JsString, name = a ++ ".mp4".toList ++ b →
      (∀ a' b' : JsString, name = a' ++ ".mp4".toList ++ b' → a.length ≤ a'.length) →
      generateTargetFilename name "_x265".toList = a ++ "_x265.mp4".toList ++ b)
    ∧ (¬ ".mp4".toList <:+: name → generateTargetFilename name "_x265".toList = name)
    ∧ generateTargetFilename "clip.mp4.backup".toList "_x265".toList
        = "clip_x265.mp4.backup".toList := by
  refine ⟨?_, ?_, by decide⟩
  · intro a b hname hfirst
    subst hname
    have hi := indexOf_first ".mp4".toList a b hfirst
    have := generateTargetFilename_of_index _ _ hi
    rw [show generateTargetFilename (a ++ ".mp4".toList ++ b) "_x265".toList
        = generateTargetFilename (a ++ ".mp4".toList ++ b) defaultFilenameAddition from rfl, this]
    simp
  · intro h
    exact generateTargetFilename_of_none name (indexOf_eq_none _ name h)

theorem generateTargetFilename_first_occurrence_witness :
    generateTargetFilename "a.mp4.mp4".toList "_x265".toList = "a_x265.mp4.mp4".toList
    ∧ generateTargetFilename "notes.txt".toList "_x265".toList = "notes.txt".toList :=
  ⟨(generateTargetFilename_first_occurrence "a.mp4.mp4".toList).1 "a".toList ".mp4".toList
      (by decide)
      (fun a' b' h => by
        cases a' with
        | nil => exact absurd h (by simp)
        | cons c a' => simp),
   (generateTargetFilename_first_occurrence "notes.txt".toList).2.1 (by decide)⟩

/-- C3: two distinct names that both end with `.mp4` have distinct target names,
hence distinct output paths in any one output directory. -/
theorem generateTargetFilename_no_collision (n₁ n₂ : JsString)
    (h₁ : ".mp4".toList <:+ n₁) (h₂ : ".mp4".toList <:+ n₂) (hne : n₁ ≠ n₂) :
    generateTargetFilename n₁ "_x265".toList ≠ generateTargetFilename n₂ "_x265".toList
    ∧ ∀ outputDirName : JsString,
      outputDirName ++ "/".toList ++ generateTargetFilename n₁ "_x265".toList
        ≠ outputDirName ++ "/".toList ++ generateTargetFilename n₂ "_x265".toList := by
  obtain ⟨i₁, e₁⟩ := indexOf_isSome_of_suffix _ n₁ h₁
  obtain ⟨i₂, e₂⟩ := indexOf_isSome_of_suffix _ n₂ h₂
  have key : generateTargetFilename n₁ "_x265".toList ≠ generateTargetFilename n₂ "_x265".toList :=
    fun h => hne (generateTargetFilename_inj_of_index n₁ n₂ i₁ i₂ e₁ e₂ h)
  exact ⟨key, fun out h => key (List.append_cancel_left h)⟩

theorem generateTargetFilename_no_collision_witness :
    generateTargetFilename "a.mp4".toList "_x265".toList
      ≠ generateTargetFilename "a_x265.mp4".toList "_x265".toList :=
  (generateTargetFilename_no_collision "a.mp4".toList "a_x265.mp4".toList
    (by decide) (by decide) (by decide)).1

/-- C4: for an entry ending with `.mp4` whose target path does not exist, the
loop body starts `ffmpeg` once, with the argument list
`-i <entry name> -c:v libx265 -crf 23 -c:a aac -b:a 128k -preset slow
<outputDir>/<targetFilename>` in this order: this is the one encoder start it
records, and the world it leaves is the one `spawnSync` returns for that
command and those arguments in the world the entry was reached in.  The input
is the bare entry name and every argument is determined by the entry name and
the output directory. -/
theorem encoder_argument_list {W : Type} (sys : Sys W) (outputDirName : JsString)
    (st : LoopState W) (fileName : JsString) (hv : ".mp4".toList <:+ fileName)
    (he : sys.existsSync st.world
      (outputDirName ++ "/".toList ++ generateTargetFilename fileName "_x265".toList) = false) :
    spawns (processEntry sys outputDirName st fileName).trace
      = spawns st.trace ++ [("ffmpeg".toList,
          [Arg.str "-i".toList, Arg.str fileName, Arg.str "-c:v".toList, Arg.str "libx265".toList,
           Arg.str "-crf".toList, Arg.num 23, Arg.str "-c:a".toList, Arg.str "aac".toList,
           Arg.str "-b:a".toList, Arg.str "128k".toList, Arg.str "-preset".toList,
           Arg.str "slow".toList,
           Arg.str (outputDirName ++ "/".toList
             ++ generateTargetFilename fileName "_x265".toList)])]
    ∧ (processEntry sys outputDirName st fileName).world
      = sys.spawnSync st.world "ffmpeg".toList
          [Arg.str "-i".toList, Arg.str fileName, Arg.str "-c:v".toList, Arg.str "libx265".toList,
           Arg.str "-crf".toList, Arg.num 23, Arg.str "-c:a".toList, Arg.str "aac".toList,
           Arg.str "-b:a".toList, Arg.str "128k".toList, Arg.str "-preset".toList,
           Arg.str "slow".toList,
           Arg.str (outputDirName ++ "/".toList
             ++ generateTargetFilename fileName "_x265".toList)] :=
  ⟨(processEntry_missing sys outputDirName st fileName ((isVideo_iff fileName).2 hv) he).2.2,
   processEntry_missing_world sys outputDirName st fileName ((isVideo_iff fileName).2 hv) he⟩

theorem encoder_argument_list_witness :
    spawns (processEntry demoSys "out".toList demoState "a.mp4".toList).trace
      = [("ffmpeg".toList,
          [Arg.str "-i".toList, Arg.str "a.mp4".toList, Arg.str "-c:v".toList,
           Arg.str "libx265".toList, Arg.str "-crf".toList, Arg.num 23, Arg.str "-c:a".toList,
           Arg.str "aac".toList, Arg.str "-b:a".toList, Arg.str "128k".toList,
           Arg.str "-preset".toList, Arg.str "slow".toList,
           Arg.str "out/a_x265.mp4".toList])]
    ∧ (processEntry demoSys "out".toList demoState "a.mp4".toList).world
      = ["out/a_x265.mp4".toList] :=
  encoder_argument_list demoSys "out".toList demoState "a.mp4".toList (by decide) (by decide)

/-- C9: `conversionCount <= videoCount` holds for the initial counters, is kept
by the loop body on every entry in every state of the world, and so holds after
any number of entries, in particular when the summary is printed. -/
theorem conversionCount_le_videoCount {W : Type} (sys : Sys W) (outputDirName : JsString) :
    (∀ (w : W) (t : List Event),
      (initialState w t).conversionCount ≤ (initialState w t).videoCount)
    ∧ (∀ (st : LoopState W) (fileName : JsString), st.conversionCount ≤ st.videoCount →
      (processEntry sys outputDirName st fileName).conversionCount
        ≤ (processEntry sys outputDirName st fileName).videoCount)
    ∧ (∀ (w : W) (t : List Event) (files : List JsString),
      (forEach sys outputDirName (initialState w t) files).conversionCount
        ≤ (forEach sys outputDirName (initialState w t) files).videoCount) :=
  ⟨fun _ _ => le_refl _,
   fun st f h => processEntry_le sys outputDirName st f h,
   fun w t files => forEach_le sys outputDirName files (initialState w t) (le_refl _)⟩

theorem conversionCount_le_videoCount_witness :
    demoStateDone.conversionCount ≤ demoStateDone.videoCount
    ∧ (processEntry demoSys "x265".toList demoStateDone "a.mp4".toList).conversionCount
        ≤ (processEntry demoSys "x265".toList demoStateDone "a.mp4".toList).videoCount :=
  ⟨by decide,
   (conversionCount_le_videoCount demoSys "x265".toList).2.1 demoStateDone "a.mp4".toList
     (by decide)⟩

/-- C5: with `process.argv` made of the node path, the script path and the
positional arguments, the script ends by `process.exit(1)` exactly when there
are no positional arguments or more than two; it has then only printed the two
messages, left the world as it was, created no directory, read no directory and
started no encoder.  With one or two positional arguments the run is not
rejected: it goes on to create the output directory. -/
theorem argument_count_rejection {W : Type} (sys : Sys W) (w : W)
    (nodePath scriptPath : JsString) (positional : List JsString) :
    ((main sys w (nodePath :: scriptPath :: positional)).outcome = Outcome.exit 1
      ↔ positional.length = 0 ∨ 2 < positional.length)
    ∧ (positional.length = 0 ∨ 2 < positional.length →
      (main sys w (nodePath :: scriptPath :: positional)).world = w
      ∧ (main sys w (nodePath :: scriptPath :: positional)).trace
        = [Event.error (invalidArgumentsLine (positional.length + 2)), Event.log usageLine]
      ∧ spawns (main sys w (nodePath :: scriptPath :: positional)).trace = [])
    ∧ (positional.length = 1 ∨ positional.length = 2 →
      (main sys w (nodePath :: scriptPath :: positional)).outcome ≠ Outcome.exit 1
      ∧ ∃ line, [Event.log line,
          Event.mkdir (outputDirNameOf (nodePath :: scriptPath :: positional))]
        <+: (main sys w (nodePath :: scriptPath :: positional)).trace) := by
  have hlen : (nodePath :: scriptPath :: positional).length = positional.length + 2 := rfl
  have hrej : positional.length = 0 ∨ 2 < positional.length →
      main sys w (nodePath :: scriptPath :: positional)
        = { world := w,
            trace := [Event.error (invalidArgumentsLine (positional.length + 2)),
              Event.log usageLine],
            outcome := Outcome.exit 1 } := by
    intro h
    have hc : (nodePath :: scriptPath :: positional).length = 2
        ∨ (nodePath :: scriptPath :: positional).length > 4 := by
      rw [hlen]; omega
    unfold main
    rw [if_pos hc]
    rfl
  have hacc : ¬ (positional.length = 0 ∨ 2 < positional.length) →
      (main sys w (nodePath :: scriptPath :: positional)).outcome ≠ Outcome.exit 1
      ∧ ∃ line, [Event.log line,
          Event.mkdir (outputDirNameOf (nodePath :: scriptPath :: positional))]
        <+: (main sys w (nodePath :: scriptPath :: positional)).trace := by
    intro h
    have hc : ¬ ((nodePath :: scriptPath :: positional).length = 2
        ∨ (nodePath :: scriptPath :: positional).length > 4) := by
      rw [hlen]; omega
    unfold main
    rw [if_neg hc]
    dsimp only
    split
    · split
      · exact ⟨by simp, _, List.prefix_refl _⟩
      · exact ⟨mainLoop_outcome _ _ _ _ _, _, mainLoop_trace _ _ _ _ _⟩
    · exact ⟨mainLoop_outcome _ _ _ _ _, _, mainLoop_trace _ _ _ _ _⟩
  refine ⟨⟨fun h => ?_, fun h => ?_⟩, fun h => ?_, fun h => ?_⟩
  · by_contra hn
    exact (hacc hn).1 h
  · rw [hrej h]
  · rw [hrej h]
    exact ⟨rfl, rfl, rfl⟩
  · exact hacc (by omega)

theorem argument_count_rejection_witness :
    (main demoSys [] ["node".toList, "videosConverter.js".toList]).world = []
    ∧ (main demoSys [] ["node".toList, "videosConverter.js".toList, "a".toList, "b".toList,
        "c".toList]).trace
      = [Event.error (invalidArgumentsLine 5), Event.log usageLine]
    ∧ (main demoSys [] ["node".toList, "videosConverter.js".toList, ".".toList]).outcome
      ≠ Outcome.exit 1 :=
  ⟨((argument_count_rejection demoSys [] "node".toList "videosConverter.js".toList []).2.1
      (Or.inl rfl)).1,
   ((argument_count_rejection demoSys [] "node".toList "videosConverter.js".toList
      ["a".toList, "b".toList, "c".toList]).2.1 (Or.inr (by decide))).2.1,
   ((argument_count_rejection demoSys [] "node".toList "videosConverter.js".toList
      [".".toList]).2.2 (Or.inl rfl)).1⟩

/-- C6, as the claim states it, fails: an empty second positional argument is
not taken literally, the output directory is then `x265`. -/
theorem selectOutputDir_empty_counterexample :
    selectOutputDir (JsValue.str "".toList) "x265".toList ≠ JsValue.str "".toList
    ∧ outputDirNameOf ["node".toList, "videosConverter.js".toList, ".".toList, "".toList]
      ≠ "".toList := by
  decide

/-- C6, amended: with exactly one positional argument the output directory is
`x265`; with exactly two it is the second argument taken literally whenever
that argument is not the empty string, and `x265` when it is. -/
theorem outputDirName_resolution (nodePath scriptPath source : JsString) :
    outputDirNameOf [nodePath, scriptPath, source] = "x265".toList
    ∧ (∀ outputDir : JsString, outputDir ≠ [] →
      outputDirNameOf [nodePath, scriptPath, source, outputDir] = outputDir
      ∧ selectOutputDir (JsValue.str outputDir) "x265".toList = JsValue.str outputDir)
    ∧ outputDirNameOf [nodePath, scriptPath, source, []] = "x265".toList := by
  refine ⟨rfl, fun outputDir h => ?_, rfl⟩
  have hs : selectOutputDir (JsValue.str outputDir) "x265".toList = JsValue.str outputDir := by
    simp [selectOutputDir, h]
  refine ⟨?_, hs⟩
  show (selectOutputDir (JsValue.str outputDir) "x265".toList).toJsString = outputDir
  rw [hs]
  rfl

theorem outputDirName_resolution_witness :
    outputDirNameOf ["node".toList, "videosConverter.js".toList, ".".toList, "out".toList]
      = "out".toList :=
  ((outputDirName_resolution "node".toList "videosConverter.js".toList ".".toList).2.1
    "out".toList (by decide)).1

/-- C7: when the listing is read and the loop runs to its end with the state
`st`, the script prints, after everything the loop printed, the lines chosen by
the final counters and then exits with status 0.  What it prints is exactly one
of three: the `None were found` line exactly when the video counter is 0; the
`already converted` line with the video count exactly when the video counter is
positive and the conversion counter is 0; the conversion summary (count and
elapsed seconds) followed by the command line exactly when the conversion
counter is at least 1. -/
theorem summary_selection {W : Type} (sys : Sys W) (w1 : W) (t2 : List Event)
    (targetFolder outputDirName : JsString) (files : List JsString) (st : LoopState W)
    (hread : sys.readdirSync w1 targetFolder = Except.ok files)
    (hst : forEach sys outputDirName (initialState w1 (t2 ++ [Event.readdir targetFolder])) files
      = st)
    (hthrown : st.thrown = none) :
    (mainLoop sys w1 t2 targetFolder outputDirName).outcome = Outcome.exit 0
    ∧ (mainLoop sys w1 t2 targetFolder outputDirName).trace
      = st.trace ++ (summary st.videoCount st.conversionCount
          (sys.elapsedSeconds w1 st.world) outputDirName).map Event.log
    ∧ ((mainLoop sys w1 t2 targetFolder outputDirName).trace
        = st.trace ++ [Event.log noneFoundLine]
      ↔ st.videoCount = 0)
    ∧ ((mainLoop sys w1 t2 targetFolder outputDirName).trace
        = st.trace ++ [Event.log (alreadyConvertedLine st.videoCount)]
      ↔ 0 < st.videoCount ∧ st.conversionCount = 0)
    ∧ ((mainLoop sys w1 t2 targetFolder outputDirName).trace
        = st.trace ++ [Event.log (convertedLine st.conversionCount
            (sys.elapsedSeconds w1 st.world)),
          Event.log (commandLineUsed outputDirName)]
      ↔ 1 ≤ st.conversionCount) := by
  have hle : st.conversionCount ≤ st.videoCount := by
    rw [← hst]
    exact forEach_le sys outputDirName files _ (le_refl _)
  have hrun := mainLoop_completed sys w1 t2 targetFolder outputDirName files hread
    (by rw [hst]; exact hthrown)
  rw [hst] at hrun
  obtain ⟨c1, c2, c3⟩ := summary_cases st.videoCount st.conversionCount
    (sys.elapsedSeconds w1 st.world) outputDirName hle
  rw [hrun]
  refine ⟨rfl, rfl, ?_, ?_, ?_⟩
  · exact (append_logs_eq_iff st.trace _ [noneFoundLine]).trans c1
  · exact (append_logs_eq_iff st.trace _ [alreadyConvertedLine st.videoCount]).trans c2
  · exact (append_logs_eq_iff st.trace _
      [convertedLine st.conversionCount (sys.elapsedSeconds w1 st.world),
        commandLineUsed outputDirName]).trans c3

theorem summary_selection_witness :
    (mainLoop demoSys [] [] "././".toList "x265".toList).outcome = Outcome.exit 0
    ∧ (mainLoop demoSys [] [] "././".toList "x265".toList).trace
      = (forEach demoSys "x265".toList (initialState [] ([] ++ [Event.readdir "././".toList]))
          ["a.mp4".toList, "notes.txt".toList]).trace
        ++ [Event.log (convertedLine 1 "0.001".toList),
            Event.log (commandLineUsed "x265".toList)] :=
  ⟨(summary_selection demoSys [] [] "././".toList "x265".toList
      ["a.mp4".toList, "notes.txt".toList] _ rfl rfl (by decide)).1,
   (summary_selection demoSys [] [] "././".toList "x265".toList
      ["a.mp4".toList, "notes.txt".toList] _ rfl rfl (by decide)).2.2.2.2.2 (by decide)⟩

/-- C8: for a byte count `b` (an integer Number, below 2^53),
`convertBytesToMegaBytes(b)` is the integer part, a dot and exactly two digits
of the number of hundredths `n` nearest to `b / 1024^2`, an exact half going
up; 1048576 gives `1.00` and 1572864 gives `1.50`. -/
theorem convertBytesToMegaBytes_rounding (bytes : Nat) (_hsafe : bytes < 2 ^ 53) :
    (∃ n : Nat,
      convertBytesToMegaBytes bytes
        = decimal (n / 100) ++ ['.', digitChar (n / 10 % 10), digitChar (n % 10)]
      ∧ (n : ℚ) / 100 - 1 / 200 ≤ (bytes : ℚ) / 1024 ^ 2
      ∧ (bytes : ℚ) / 1024 ^ 2 < (n : ℚ) / 100 + 1 / 200)
    ∧ convertBytesToMegaBytes 1048576 = "1.00".toList
    ∧ convertBytesToMegaBytes 1572864 = "1.50".toList := by
  refine ⟨⟨(2 * bytes * 10 ^ 2 + 1024 * 1024) / (2 * (1024 * 1024)), ?_, ?_, ?_⟩,
    by decide, by decide⟩
  · exact toFixed_two_digits bytes (1024 * 1024)
  · have h1 : (2 * bytes * 10 ^ 2 + 1024 * 1024) / (2 * (1024 * 1024)) * (2 * (1024 * 1024))
        ≤ 2 * bytes * 10 ^ 2 + 1024 * 1024 := Nat.div_mul_le_self _ _
    have h2 : (((2 * bytes * 10 ^ 2 + 1024 * 1024) / (2 * (1024 * 1024)) : ℕ) : ℚ)
        * (2 * (1024 * 1024)) ≤ 2 * (bytes : ℚ) * 10 ^ 2 + 1024 * 1024 := by
      exact_mod_cast h1
    rw [le_div_iff₀ (by norm_num)]
    linarith
  · have h1 : 2 * bytes * 10 ^ 2 + 1024 * 1024
        < ((2 * bytes * 10 ^ 2 + 1024 * 1024) / (2 * (1024 * 1024)) + 1) * (2 * (1024 * 1024)) :=
      by omega
    have h2 : 2 * (bytes : ℚ) * 10 ^ 2 + 1024 * 1024
        < ((((2 * bytes * 10 ^ 2 + 1024 * 1024) / (2 * (1024 * 1024)) : ℕ) : ℚ) + 1)
          * (2 * (1024 * 1024)) := by
      exact_mod_cast h1
    rw [div_lt_iff₀ (by norm_num)]
    linarith

theorem convertBytesToMegaBytes_rounding_witness :
    convertBytesToMegaBytes 1572864 = "1.50".toList :=
  (convertBytesToMegaBytes_rounding 1572864 (by norm_num)).2.2

set_option maxRecDepth 8000 in
/-- C10: the command line printed in the summary leaves out the `-preset slow`
option that is in the argument list the encoder is started with. -/
theorem commandLineUsed_omits_preset :
    commandLineUsed "x265".toList
      = ("Command line used: `ffmpeg -i <fileName> -c:v libx265 -crf 23 -c:a aac -b:a 128k "
          ++ "x265/<targetFilename>`").toList
    ∧ ffmpegArgs "<fileName>".toList "x265".toList "<targetFilename>".toList
      = [Arg.str "-i".toList, Arg.str "<fileName>".toList, Arg.str "-c:v".toList,
         Arg.str "libx265".toList, Arg.str "-crf".toList, Arg.num 23, Arg.str "-c:a".toList,
         Arg.str "aac".toList, Arg.str "-b:a".toList, Arg.str "128k".toList,
         Arg.str "-preset".toList, Arg.str "slow".toList,
         Arg.str "x265/<targetFilename>".toList]
    ∧ ¬ "-preset".toList <:+: commandLineUsed "x265".toList := by
  refine ⟨?_, ?_, ?_⟩
  · decide
  · rfl
  · decide

end VideosConverter
